import Mathlib

/-!
Verification of the message-parsing pipeline of `nba.py` and `olympics.py`
(forum-thread scrapers).  Lines and posts are represented over `List Char`;
the regex scans, alias resolution, validation order, timestamp parsing and
frequency counting are embedded as executable functions below.
-/

set_option maxRecDepth 8000

deriving instance DecidableEq for Except

/-- Word characters of the ASCII fragment of the regex class `\w`
(every alias token and every input considered is ASCII). -/
def isWordChar (c : Char) : Bool := c.isAlphanum || c = '_'

/-- Splits a line into its maximal runs of word characters
(accumulator holds the current run, reversed). -/
def wordsAux : List Char → List Char → List (List Char)
  | [], acc => if acc = [] then [] else [acc.reverse]
  | c :: cs, acc =>
    if isWordChar c then wordsAux cs (c :: acc)
    else if acc = [] then wordsAux cs []
    else acc.reverse :: wordsAux cs []

/-- `re.findall(WORD_REGEX, line)` with `WORD_REGEX = \b\w{2,}\b`:
the maximal word-character runs of length at least two, left to right. -/
def findWords (line : List Char) : List (List Char) :=
  (wordsAux line []).filter (fun w => 2 ≤ w.length)

/-- The regex class `[0-4]`. -/
def isScoreDigit (c : Char) : Bool :=
  ('0').toNat ≤ c.toNat && c.toNat ≤ ('4').toNat

/-- Numeric value of a digit character (`int(n)` on a one-character match). -/
def digitVal (c : Char) : Nat := c.toNat - ('0').toNat

/-- Left context of `SCORE_REGEX`: the leading `\b` (previous character, if
any, is not a word character) together with the negative lookbehind
`(?<!\()` (previous character is not an opening parenthesis). -/
def leftOk : Option Char → Bool
  | none => true
  | some c => !isWordChar c && !(c = '(')

/-- Right context of `SCORE_REGEX`: the trailing `\b` together with the
negative lookahead `(?!\))`. -/
def rightOk : Option Char → Bool
  | none => true
  | some c => !isWordChar c && !(c = ')')

/-- Whether `SCORE_REGEX = (?<!\()\b[0-4]\b(?!\))` matches at a position,
given the characters adjacent to it. -/
def scorePos (prev : Option Char) (c : Char) (next : Option Char) : Bool :=
  isScoreDigit c && leftOk prev && rightOk next

/-- The left-to-right scan of `re.findall` for `SCORE_REGEX` (every match is
one character wide, so the scan visits every position). -/
def findScoresAux (prev : Option Char) : List Char → List Nat
  | [] => []
  | c :: rest =>
    (if scorePos prev c rest.head? then [digitVal c] else []) ++
      findScoresAux (some c) rest

/-- `[int(n) for n in re.findall(SCORE_REGEX, line)]`. -/
def findScores (line : List Char) : List Nat := findScoresAux none line

/-- The `TEAMS` alias table of `nba.py`, in its declared iteration order. -/
def TEAMS : List (String × List String) := [
  ("ATL", ["atl", "atlanta", "hawks"]),
  ("BOS", ["bos", "boston", "celtics"]),
  ("BKN", ["bkn", "brooklyn", "nets"]),
  ("CLE", ["cle", "cleveland", "cavaliers", "cavs"]),
  ("CHA", ["cha", "charlotte", "hornets"]),
  ("CHI", ["chi", "chicago", "bulls"]),
  ("DAL", ["dal", "dallas", "mavericks", "mavs"]),
  ("DEN", ["den", "denver", "nuggets"]),
  ("DET", ["det", "detroit", "pistons"]),
  ("GSW", ["gsw", "golden", "state", "warriors"]),
  ("HOU", ["hou", "houston", "rockets"]),
  ("IND", ["ind", "indiana", "pacers"]),
  ("LAC", ["lac", "clippers"]),
  ("LAL", ["lal", "lakers"]),
  ("MEM", ["mem", "memphis", "grizzlies"]),
  ("MIA", ["mia", "miami", "heat"]),
  ("MIL", ["mil", "milwaukee", "bucks"]),
  ("MIN", ["min", "minnesota", "timberwolves", "wolves"]),
  ("NOP", ["nop", "orleans", "pelicans", "no", "nola", "pels"]),
  ("NYK", ["nyk", "york", "knicks", "nyc", "ny"]),
  ("OKC", ["okc", "oklahoma", "thunder"]),
  ("ORL", ["orl", "orlando", "magic"]),
  ("PHI", ["phi", "philadelphia", "sixers"]),
  ("PHX", ["phx", "phoenix", "suns", "pho"]),
  ("POR", ["por", "portland", "trailblazers", "blazers"]),
  ("SAC", ["sac", "sacramento", "kings"]),
  ("SAS", ["sas", "san", "antonio", "spurs"]),
  ("TOR", ["tor", "toronto", "raptors"]),
  ("UTA", ["uta", "utah", "jazz"]),
  ("WAS", ["was", "washington", "wizards"])]

/-- The team-collection loop of `parse_line`: for each word, the inner loop
over `TEAMS.items()` appends (and breaks at) the first pair with
`word in names and team not in teams`. -/
def collectTeams (words : List (List Char)) : List String :=
  words.foldl (fun ts w =>
    match TEAMS.find? (fun p => p.2.contains (String.mk w) && !ts.contains p.1) with
    | some p => ts ++ [p.1]
    | none => ts) []

/-- Teams collected from a line: `line.casefold()` (modelled as ASCII
lowercasing) followed by the word scan and the team-collection loop. -/
def teamsOf (line : List Char) : List String :=
  collectTeams (findWords (line.map Char.toLower))

/-- Scores of a line: the `SCORE_REGEX` scan over the casefolded line. -/
def scoresOf (line : List Char) : List Nat :=
  findScores (line.map Char.toLower)

/-- The assertion reasons of `parse_line`, carrying the offending collected
values that the f-strings interpolate. -/
inductive LineError
  | noTeam
  | noScore
  | teamCount (teams : List String)
  | scoreCount (scores : List Nat)
  | fourCount (scores : List Nat)
deriving DecidableEq

/-- The dictionary returned by `parse_line`. -/
structure Prediction where
  result : String × Nat
  teams : String × String
  scores : Nat × Nat
deriving DecidableEq

/-- `parse_line` of `nba.py`: collect teams and scores, run the five asserts
in order, then build the result record. -/
def parse_line (line : List Char) : Except LineError Prediction :=
  let teams := teamsOf line
  let scores := scoresOf line
  if teams = [] then .error .noTeam
  else if scores = [] then .error .noScore
  else if teams.length ≠ 2 then .error (.teamCount teams)
  else if scores.length ≠ 2 then .error (.scoreCount scores)
  else if scores.count 4 ≠ 1 then .error (.fourCount scores)
  else
    let winner := if scores.getD 0 0 > scores.getD 1 0 then teams.getD 0 "" else teams.getD 1 ""
    .ok ⟨(winner, scores.sum), (teams.getD 0 "", teams.getD 1 ""), (scores.getD 0 0, scores.getD 1 0)⟩

/-! ## The timestamp parser (`parse_date`) -/

/-- Result of `datetime.strptime`. -/
structure DateTime where
  day : Nat
  month : Nat
  year : Nat
  hour : Nat
  minute : Nat
  second : Nat
deriving DecidableEq

/-- Consumes an expected literal fragment of the format string, or fails. -/
def dropLit : List Char → List Char → Option (List Char)
  | [], s => some s
  | _ :: _, [] => none
  | c :: cs, d :: ds => if c = d then dropLit cs ds else none

/-- A one- or two-digit numeric field of `strptime` (`%d`, `%m`, `%H`, `%M`,
`%S`): two digits are taken when their value passes `ok2`, else one digit
passing `ok1`, mirroring the alternation order of CPython's field regexes. -/
def read2 (ok2 ok1 : Nat → Bool) : List Char → Option (Nat × List Char)
  | c1 :: c2 :: rest =>
    if c1.isDigit && c2.isDigit && ok2 (digitVal c1 * 10 + digitVal c2) then
      some (digitVal c1 * 10 + digitVal c2, rest)
    else if c1.isDigit && ok1 (digitVal c1) then some (digitVal c1, c2 :: rest)
    else none
  | [c1] => if c1.isDigit && ok1 (digitVal c1) then some (digitVal c1, []) else none
  | [] => none

/-- The `%Y` field of `strptime`: exactly four digits. -/
def read4 : List Char → Option (Nat × List Char)
  | a :: b :: c :: d :: rest =>
    if a.isDigit && b.isDigit && c.isDigit && d.isDigit then
      some (((digitVal a * 10 + digitVal b) * 10 + digitVal c) * 10 + digitVal d, rest)
    else none
  | _ => none

/-- `datetime.strptime(date_string, "Posté le %d-%m-%Y à %H:%M:%S")`, which
raises `ValueError` (modelled as `none`) whenever the string does not match
the format in full.  Field ranges follow CPython's field regexes; the
calendar check of day against month length is not modelled (no claim
depends on it). -/
def parse_date (s : List Char) : Option DateTime := do
  let s ← dropLit (("Posté le ").data) s
  let (d, s) ← read2 (fun v => 1 ≤ v && v ≤ 31) (fun v => 1 ≤ v && v ≤ 9) s
  let s ← dropLit (("-").data) s
  let (m, s) ← read2 (fun v => 1 ≤ v && v ≤ 12) (fun v => 1 ≤ v && v ≤ 9) s
  let s ← dropLit (("-").data) s
  let (y, s) ← read4 s
  let s ← dropLit ((" à ").data) s
  let (hh, s) ← read2 (fun v => v ≤ 23) (fun v => v ≤ 9) s
  let s ← dropLit ((":").data) s
  let (mi, s) ← read2 (fun v => v ≤ 59) (fun v => v ≤ 9) s
  let s ← dropLit ((":").data) s
  let (ss, s) ← read2 (fun v => v ≤ 59) (fun v => v ≤ 9) s
  if s = [] then pure ⟨d, m, y, hh, mi, ss⟩ else none

/-! ## The basketball post extractor (`parse_message`, `get_messages`) -/

/-- The fixed first line of a repeated page-boundary message. -/
def reprise : List Char := ("Reprise du message précédent :").data

/-- The `AssertionError` reasons raised by `parse_message` in `nba.py`. -/
inductive PostError
  | advertisement
  | duplicate
  | noSeries
  | seriesCount (n : Nat)
deriving DecidableEq

/-- Exception classes escaping `parse_message`: `AssertionError` (caught by
`get_messages`) versus `ValueError` (raised by `datetime.strptime` and by
`int(...)`, caught nowhere). -/
inductive Failure
  | assertionError (e : PostError)
  | valueError
deriving DecidableEq

/-- One forum post as `parse_message` reads it through the document-query
collaborator: author name, optional permalink anchor `name` attribute,
raw timestamp string, and the cleaned body's non-empty trimmed lines. -/
structure RawPost where
  user : String
  anchorName : Option String
  dateString : List Char
  bodyLines : List (List Char)
deriving DecidableEq

/-- The accepted record of `parse_message` in `nba.py`. -/
structure Entry where
  user : String
  id : String
  date : DateTime
  results : List (String × Nat)
deriving DecidableEq

/-- The slice `metadata.a.get("name")[1:]` stripping the one-character
anchor prefix. -/
def stripAnchor (a : String) : String := String.mk (a.data.drop 1)

/-- Python's `int(...)` on a string: all characters must be digits
(whitespace and sign handling are not modelled; anchors are plain digits). -/
def natOfChars (l : List Char) : Option Nat :=
  if l ≠ [] ∧ l.all Char.isDigit then
    some (l.foldl (fun n c => n * 10 + digitVal c) 0)
  else none

/-- The line loop of `parse_message`: each line is parsed by `parse_line`,
failures are discarded individually and successes collected in order
(`series.append(data.get("result"))`). -/
def collectSeries (lines : List (List Char)) : List (String × Nat) :=
  lines.filterMap (fun l => ((parse_line l).toOption).map Prediction.result)

/-- `parse_message` of `nba.py`: advertisement check, id from the anchor,
timestamp, duplicate check on the first body line, line loop, then the two
count asserts. -/
def parse_message (p : RawPost) : Except Failure Entry :=
  match p.anchorName with
  | none => .error (.assertionError .advertisement)
  | some a =>
    match parse_date p.dateString with
    | none => .error .valueError
    | some date =>
      if p.bodyLines.head? = some reprise then .error (.assertionError .duplicate)
      else
        let series := collectSeries p.bodyLines
        if series = [] then .error (.assertionError .noSeries)
        else if series.length ≠ 15 then .error (.assertionError (.seriesCount series.length))
        else .ok ⟨p.user, stripAnchor a, date, series⟩

/-- `entries[entry["id"]] = entry` on an insertion-ordered dictionary. -/
def insertEntry (l : List (String × Entry)) (k : String) (e : Entry) : List (String × Entry) :=
  if l.any (fun kv => kv.1 = k) then
    l.map (fun kv => if kv.1 = k then (k, e) else kv)
  else l ++ [(k, e)]

/-- `get_messages` of `nba.py`: each post is extracted, `AssertionError`
discards are logged and skipped, and any other exception propagates and
aborts the whole call. -/
def get_messages (posts : List RawPost) : Except Failure (List (String × Entry)) :=
  posts.foldlM (fun entries p =>
    match parse_message p with
    | .ok e => .ok (insertEntry entries e.id e)
    | .error (.assertionError _) => .ok entries
    | .error .valueError => .error .valueError) []

/-! ## The olympics post extractor and its shared frequency tables -/

def TOPIC_BASE_URL : String :=
  "https://forum.hardware.fr/hfr/Discussions/Sports/olympiques-objectif-medailles-sujet_111788"

/-- The three process-wide `defaultdict(int)` tables mutated inside
`parse_message` of `olympics.py`, as insertion-ordered key/count lists. -/
structure CountState where
  user_count : List (String × Nat)
  emote_count : List (String × Nat)
  image_count : List (String × Nat)
deriving DecidableEq

/-- `table[key] += 1` on a `defaultdict(int)`. -/
def bump (l : List (String × Nat)) (k : String) : List (String × Nat) :=
  if l.any (fun kv => kv.1 = k) then
    l.map (fun kv => if kv.1 = k then (kv.1, kv.2 + 1) else kv)
  else l ++ [(k, 1)]

/-- `table[key]` read back at reporting time (`0` when absent). -/
def getCount (l : List (String × Nat)) (k : String) : Nat :=
  (((l.find? (fun kv => kv.1 = k))).map (fun kv => kv.2)).getD 0

/-- One post of the olympics thread as `parse_message` reads it: author,
optional anchor, timestamp string, the quote count already extracted by
`parse_quotes`, the `alt` labels of the body's images in document order
(absent `alt` attributes modelled as the falsy `""`), and the cleaned
body lines. -/
structure OlyPost where
  user : String
  anchorName : Option String
  dateString : List Char
  quotes : Nat
  imageAlts : List String
  bodyLines : List (List Char)
deriving DecidableEq

/-- The accepted record of `parse_message` in `olympics.py`. -/
structure OlyEntry where
  user : String
  id : Nat
  date : DateTime
  quotes : Nat
  page : Nat
  url : String
deriving DecidableEq

/-- `name.startswith("http")`. -/
def startsHttp (name : String) : Bool := (("http").data).isPrefixOf name.data

/-- The body of the image loop of `parse_message` in `olympics.py`: a falsy
label is skipped, a label starting with `"http"` counts as an image share,
any other label counts as an emote. -/
def imageStep (s : CountState) (name : String) : CountState :=
  if name = "" then s
  else if startsHttp name then { s with image_count := bump s.image_count name }
  else { s with emote_count := bump s.emote_count name }

/-- The image loop of `parse_message` in `olympics.py` over the body's
image labels in document order. -/
def foldImages (st : CountState) (alts : List String) : CountState :=
  alts.foldl imageStep st

/-- `parse_message` of `olympics.py`, with the shared tables passed as
explicit state (`pg` is the module-level `page` variable).  The author
count is bumped right after the advertisement check, and the image/emote
counts during the image loop, both before the duplicate check raises. -/
def oly_parse_message (pg : Nat) (st : CountState) (p : OlyPost) :
    CountState × Except Failure OlyEntry :=
  match p.anchorName with
  | none => (st, .error (.assertionError .advertisement))
  | some a =>
    let st1 : CountState := { st with user_count := bump st.user_count p.user }
    match natOfChars (a.data.drop 1) with
    | none => (st1, .error .valueError)
    | some id =>
      match parse_date p.dateString with
      | none => (st1, .error .valueError)
      | some date =>
        let url := TOPIC_BASE_URL ++ "_" ++ toString pg ++ ".htm#t" ++ toString id
        let st2 := foldImages st1 p.imageAlts
        if p.bodyLines.head? = some reprise then
          (st2, .error (.assertionError .duplicate))
        else
          (st2, .ok ⟨p.user, id, date, p.quotes, pg, url⟩)

/-- `print_top` of `olympics.py`, returning the rows it prints: a threshold
is read from the entry at index `num - 1` when the list is longer than
`num` (else `0`), and every row with count at least the threshold is kept. -/
def print_top (input : List (Nat × String)) (num : Nat) : List (Nat × String) :=
  let threshold := if input.length > num then (input.getD (num - 1) (0, "")).1 else 0
  input.filter (fun x => decide (threshold ≤ x.1))

/-! ## The resolver as the specification words it (for the refinement claim
about alias resolution) -/

/-- Modelled from the spec: `resolve(word)` returns the first team whose
alias set contains the token, in the table's declared iteration order. -/
def resolve (w : List Char) : Option String :=
  ((TEAMS.find? (fun p => p.2.contains (String.mk w)))).map Prod.fst

/-- Modelled from the spec: collect each word's resolved team into an
ordered, deduplicated list (skip tokens resolving to a team already
collected). -/
def collectTeamsSpec (words : List (List Char)) : List String :=
  words.foldl (fun ts w =>
    match resolve w with
    | some t => if ts.contains t then ts else ts ++ [t]
    | none => ts) []

/-! ## Lemmas about alias resolution -/

/-- No token appears in the alias lists of two different teams. -/
theorem teams_no_overlap :
    TEAMS.Pairwise (fun p q => ∀ s ∈ p.2, s ∉ q.2) := by decide

/-- `find?` for a conjunctive predicate, when at most one element satisfies
the first conjunct: the extra conjunct only filters the unique hit. -/
theorem find?_and_bind {α : Type} (P Q R : α → Bool) (hR : ∀ a, R a = (P a && Q a))
    (L : List α) (hu : L.Pairwise (fun a b => ¬(P a = true ∧ P b = true))) :
    L.find? R = (L.find? P).bind (fun a => if Q a = true then some a else none) := by
  induction L with
  | nil => rfl
  | cons a L ih =>
    obtain ⟨ha, hL⟩ := List.pairwise_cons.mp hu
    by_cases hP : P a = true
    · by_cases hQ : Q a = true
      · rw [List.find?_cons_of_pos L (by rw [hR]; simp [hP, hQ]),
          List.find?_cons_of_pos L hP]
        simp [hQ]
      · have hnone : L.find? R = none := by
          apply List.find?_eq_none.mpr
          intro b hb
          rw [hR b]
          intro hc
          rw [Bool.and_eq_true] at hc
          exact (ha b hb) ⟨hP, hc.1⟩
        rw [List.find?_cons_of_neg L (by rw [hR]; simp [hQ]), hnone,
          List.find?_cons_of_pos L hP]
        simp [hQ]
    · rw [List.find?_cons_of_neg L (by rw [hR]; simp [hP]),
        List.find?_cons_of_neg L hP]
      exact ih hL

/-- One step of the team-collection loop agrees with first-match resolution
followed by the dedup check, because no token is shared between teams. -/
theorem collectTeams_step (ts : List String) (w : List Char) :
    (match TEAMS.find? (fun p => p.2.contains (String.mk w) && !ts.contains p.1) with
      | some p => ts ++ [p.1]
      | none => ts) =
    (match resolve w with
      | some t => if ts.contains t then ts else ts ++ [t]
      | none => ts) := by
  have hu : TEAMS.Pairwise (fun p q =>
      ¬(p.2.contains (String.mk w) = true ∧ q.2.contains (String.mk w) = true)) := by
    refine teams_no_overlap.imp ?_
    intro p q hpq hc
    obtain ⟨h1, h2⟩ := hc
    exact hpq (String.mk w) (by simpa using h1) (by simpa using h2)
  have key := find?_and_bind (fun p => p.2.contains (String.mk w))
    (fun p => !ts.contains p.1)
    (fun p => p.2.contains (String.mk w) && !ts.contains p.1)
    (fun a => rfl) TEAMS hu
  rw [key]
  unfold resolve
  cases h : TEAMS.find? (fun p => p.2.contains (String.mk w)) with
  | none => simp
  | some p =>
    by_cases hmem : ts.contains p.1 = true
    · have hm : p.1 ∈ ts := by simpa using hmem
      simp [hm]
    · have hm : p.1 ∉ ts := by simpa using hmem
      simp [hm]

/-- The team-collection loop of `parse_line` equals the resolver described
by the specification (first team in declared order whose alias set contains
the token, collected into an ordered deduplicated list). -/
theorem collectTeams_eq_spec (words : List (List Char)) :
    collectTeams words = collectTeamsSpec words := by
  have h : ∀ ts : List String,
      List.foldl (fun ts w =>
        match TEAMS.find? (fun p => p.2.contains (String.mk w) && !ts.contains p.1) with
        | some p => ts ++ [p.1]
        | none => ts) ts words =
      List.foldl (fun ts w =>
        match resolve w with
        | some t => if ts.contains t then ts else ts ++ [t]
        | none => ts) ts words := by
    induction words with
    | nil => intro ts; rfl
    | cons w ws ih =>
      intro ts
      simp only [List.foldl_cons]
      rw [collectTeams_step ts w]
      exact ih _
  exact h []

/-! ## Lemmas about the frequency tables -/

theorem getCount_bump_self (l : List (String × Nat)) (k : String) :
    getCount (bump l k) k = getCount l k + 1 := by
  by_cases h : l.any (fun kv => decide (kv.1 = k)) = true
  · have hb : bump l k = l.map (fun kv => if kv.1 = k then (kv.1, kv.2 + 1) else kv) := by
      unfold bump
      rw [if_pos h]
    rw [hb]
    unfold getCount
    cases hfind : l.find? (fun kv => decide (kv.1 = k)) with
    | none =>
      exfalso
      obtain ⟨kv, hkv, hp⟩ := List.any_eq_true.mp h
      exact List.find?_eq_none.mp hfind kv hkv hp
    | some kv0 =>
      have hk0 : kv0.1 = k := by simpa using List.find?_some hfind
      have hcomp : ((fun kv : String × Nat => decide (kv.1 = k)) ∘
          (fun kv => if kv.1 = k then (kv.1, kv.2 + 1) else kv)) =
          (fun kv : String × Nat => decide (kv.1 = k)) := by
        funext kv
        by_cases hkv : kv.1 = k <;> simp [hkv]
      rw [List.find?_map, hcomp, hfind]
      simp [hk0]
  · have hb : bump l k = l ++ [(k, 1)] := by
      unfold bump
      rw [if_neg h]
    rw [hb]
    unfold getCount
    have hnone : l.find? (fun kv => decide (kv.1 = k)) = none := by
      apply List.find?_eq_none.mpr
      intro kv hkv hp
      exact h (List.any_eq_true.mpr ⟨kv, hkv, hp⟩)
    rw [List.find?_append, hnone]
    simp [List.find?]

theorem getCount_bump_other (l : List (String × Nat)) (k k' : String) (hne : k' ≠ k) :
    getCount (bump l k) k' = getCount l k' := by
  by_cases h : l.any (fun kv => decide (kv.1 = k)) = true
  · have hb : bump l k = l.map (fun kv => if kv.1 = k then (kv.1, kv.2 + 1) else kv) := by
      unfold bump
      rw [if_pos h]
    rw [hb]
    unfold getCount
    have hcomp : ((fun kv : String × Nat => decide (kv.1 = k')) ∘
        (fun kv => if kv.1 = k then (kv.1, kv.2 + 1) else kv)) =
        (fun kv : String × Nat => decide (kv.1 = k')) := by
      funext kv
      by_cases hkv : kv.1 = k <;> simp [hkv, hne.symm]
    rw [List.find?_map, hcomp]
    cases hfind : l.find? (fun kv => decide (kv.1 = k')) with
    | none => simp
    | some kv0 =>
      have hk0 : kv0.1 = k' := by simpa using List.find?_some hfind
      have hstep : (if kv0.1 = k then (kv0.1, kv0.2 + 1) else kv0) = kv0 := by
        rw [hk0]
        simp [hne]
      simp [hstep]
  · have hb : bump l k = l ++ [(k, 1)] := by
      unfold bump
      rw [if_neg h]
    rw [hb]
    unfold getCount
    rw [List.find?_append]
    have hlast : List.find? (fun kv : String × Nat => decide (kv.1 = k')) [(k, 1)] = none := by
      simp [List.find?, Ne.symm hne]
    rw [hlast]
    simp

theorem imageStep_user (s : CountState) (a : String) :
    (imageStep s a).user_count = s.user_count := by
  unfold imageStep
  by_cases h0 : a = "" <;> by_cases h1 : startsHttp a = true <;> simp [h0, h1]

theorem imageStep_emote (s : CountState) (a : String) :
    (imageStep s a).emote_count =
      if ¬a = "" ∧ startsHttp a = false then bump s.emote_count a else s.emote_count := by
  unfold imageStep
  by_cases h0 : a = "" <;> by_cases h1 : startsHttp a = true <;> simp [h0, h1]

theorem imageStep_image (s : CountState) (a : String) :
    (imageStep s a).image_count =
      if ¬a = "" ∧ startsHttp a = true then bump s.image_count a else s.image_count := by
  unfold imageStep
  by_cases h0 : a = "" <;> by_cases h1 : startsHttp a = true <;> simp [h0, h1]

theorem foldImages_user_count (alts : List String) : ∀ st : CountState,
    (foldImages st alts).user_count = st.user_count := by
  unfold foldImages
  induction alts with
  | nil => intro st; rfl
  | cons a rest ih =>
    intro st
    rw [List.foldl_cons, ih (imageStep st a), imageStep_user]

theorem foldImages_emote_count (name : String) (hne : name ≠ "")
    (hh : startsHttp name = false) (alts : List String) : ∀ st : CountState,
    getCount (foldImages st alts).emote_count name =
      getCount st.emote_count name + alts.count name := by
  unfold foldImages
  induction alts with
  | nil => intro st; simp
  | cons a rest ih =>
    intro st
    rw [List.foldl_cons, ih (imageStep st a), imageStep_emote, List.count_cons]
    by_cases hcase : ¬a = "" ∧ startsHttp a = false
    · rw [if_pos hcase]
      by_cases hname : a = name
      · subst hname
        rw [getCount_bump_self]
        have hbeq : (a == a) = true := by simp
        rw [hbeq]
        simp only [eq_self_iff_true, if_true, Bool.false_eq_true, if_false]
        omega
      · rw [getCount_bump_other _ _ _ (fun hc => hname hc.symm)]
        have hbeq : (a == name) = false := beq_eq_false_iff_ne.mpr hname
        rw [hbeq]
        simp only [eq_self_iff_true, if_true, Bool.false_eq_true, if_false]
        omega
    · rw [if_neg hcase]
      have hbeq : (a == name) = false := by
        rw [beq_eq_false_iff_ne]
        intro hc
        rcases not_and_or.mp hcase with hc1 | hc2
        · exact hne (hc.symm.trans (not_not.mp hc1))
        · rw [← hc] at hh
          exact hc2 hh
      rw [hbeq]
      simp only [eq_self_iff_true, if_true, Bool.false_eq_true, if_false]
      omega

theorem foldImages_image_count (name : String) (hh : startsHttp name = true)
    (alts : List String) : ∀ st : CountState,
    getCount (foldImages st alts).image_count name =
      getCount st.image_count name + alts.count name := by
  unfold foldImages
  induction alts with
  | nil => intro st; simp
  | cons a rest ih =>
    intro st
    rw [List.foldl_cons, ih (imageStep st a), imageStep_image, List.count_cons]
    by_cases hcase : ¬a = "" ∧ startsHttp a = true
    · rw [if_pos hcase]
      by_cases hname : a = name
      · subst hname
        rw [getCount_bump_self]
        have hbeq : (a == a) = true := by simp
        rw [hbeq]
        simp only [eq_self_iff_true, if_true, Bool.false_eq_true, if_false]
        omega
      · rw [getCount_bump_other _ _ _ (fun hc => hname hc.symm)]
        have hbeq : (a == name) = false := beq_eq_false_iff_ne.mpr hname
        rw [hbeq]
        simp only [eq_self_iff_true, if_true, Bool.false_eq_true, if_false]
        omega
    · rw [if_neg hcase]
      have hbeq : (a == name) = false := by
        rw [beq_eq_false_iff_ne]
        intro hc
        rcases not_and_or.mp hcase with hc1 | hc2
        · rw [← hc] at hh
          rw [not_not.mp hc1] at hh
          exact Bool.false_ne_true ((by decide : startsHttp "" = false) ▸ hh)
        · rw [← hc] at hh
          exact hc2 hh
      rw [hbeq]
      simp only [eq_self_iff_true, if_true, Bool.false_eq_true, if_false]
      omega

/-! ## Lemmas about the score scan -/

theorem findScoresAux_le (l : List Char) : ∀ (prev : Option Char),
    ∀ x ∈ findScoresAux prev l, x ≤ 4 := by
  induction l with
  | nil => intro prev x hx; simp [findScoresAux] at hx
  | cons c rest ih =>
    intro prev x hx
    simp only [findScoresAux, List.mem_append] at hx
    rcases hx with hx | hx
    · by_cases h : scorePos prev c rest.head? = true
      · simp only [h, if_true, List.mem_singleton] at hx
        subst hx
        have hd : isScoreDigit c = true := by
          have := h
          simp only [scorePos, Bool.and_eq_true] at this
          exact this.1.1
        simp only [isScoreDigit, Bool.and_eq_true, decide_eq_true_eq] at hd
        obtain ⟨hlo, hhi⟩ := hd
        have e0 : ('0').toNat = 48 := rfl
        have e4 : ('4').toNat = 52 := rfl
        rw [e4] at hhi
        simp only [digitVal, e0]
        omega
      · simp [h] at hx
    · exact ih (some c) x hx

theorem scoresOf_le (line : List Char) : ∀ x ∈ scoresOf line, x ≤ 4 :=
  findScoresAux_le (line.map Char.toLower) none

/-- The scan consults the previous character only through `leftOk`, and only
at the first position. -/
theorem findScoresAux_congr (p1 p2 : Option Char) (l : List Char)
    (h : leftOk p1 = leftOk p2) : findScoresAux p1 l = findScoresAux p2 l := by
  cases l with
  | nil => rfl
  | cons c rest => simp only [findScoresAux, scorePos, h]

theorem findScoresAux_paren (u : List Char) (d : Char) (v : List Char) :
    ∀ p, findScoresAux p (u ++ '(' :: d :: ')' :: v) =
      findScoresAux p (u ++ '(' :: ')' :: v) := by
  induction u with
  | nil =>
    intro p
    have h1 : ∀ pr nx, scorePos pr '(' nx = false := by
      intro pr nx; simp [scorePos, isScoreDigit]
    have h2 : ∀ pr nx, scorePos pr ')' nx = false := by
      intro pr nx; simp [scorePos, isScoreDigit]
    have h3 : leftOk (some '(') = false := by decide
    have h7 : ∀ nx, scorePos (some '(') d nx = false := by
      intro nx; simp [scorePos, h3]
    simp [findScoresAux, h1, h2, h7]
  | cons a u' ih =>
    intro p
    simp only [List.cons_append, findScoresAux, List.append_eq]
    have hcond : scorePos p a (u' ++ '(' :: d :: ')' :: v).head? =
        scorePos p a (u' ++ '(' :: ')' :: v).head? := by
      cases u' <;> simp
    simp only [hcond, ih (some a)]

theorem findScoresAux_openParen (u : List Char) (d : Char) (v : List Char)
    (hd : isWordChar d = true) :
    ∀ p, findScoresAux p (u ++ '(' :: d :: v) = findScoresAux p (u ++ '(' :: v) := by
  induction u with
  | nil =>
    intro p
    have h1 : ∀ pr nx, scorePos pr '(' nx = false := by
      intro pr nx; simp [scorePos, isScoreDigit]
    have h3 : leftOk (some '(') = false := by decide
    have h4 : leftOk (some d) = false := by simp [leftOk, hd]
    have h7 : ∀ nx, scorePos (some '(') d nx = false := by
      intro nx; simp [scorePos, h3]
    simp only [List.nil_append, findScoresAux, h1, h7, Bool.false_eq_true, if_false,
      List.nil_append]
    exact findScoresAux_congr (some d) (some '(') v (h4.trans h3.symm)
  | cons a u' ih =>
    intro p
    simp only [List.cons_append, findScoresAux, List.append_eq]
    have hcond : scorePos p a (u' ++ '(' :: d :: v).head? =
        scorePos p a (u' ++ '(' :: v).head? := by
      cases u' <;> simp
    simp only [hcond, ih (some a)]

theorem findScoresAux_closeParen (u : List Char) (d : Char) (v : List Char)
    (hd : isWordChar d = true) :
    ∀ p, findScoresAux p (u ++ d :: ')' :: v) = findScoresAux p (u ++ ')' :: v) := by
  induction u with
  | nil =>
    intro p
    have h2 : ∀ pr nx, scorePos pr ')' nx = false := by
      intro pr nx; simp [scorePos, isScoreDigit]
    have h5 : rightOk (some ')') = false := by decide
    have h8 : ∀ pr, scorePos pr d (some ')') = false := by
      intro pr; simp [scorePos, h5]
    simp [findScoresAux, h2, h8]
  | cons a u' ih =>
    intro p
    simp only [List.cons_append, findScoresAux, List.append_eq]
    have h6 : rightOk (some d) = false := by simp [rightOk, hd]
    have h5 : rightOk (some ')') = false := by decide
    have hcond : scorePos p a (u' ++ d :: ')' :: v).head? =
        scorePos p a (u' ++ ')' :: v).head? := by
      cases u' with
      | nil => simp [scorePos, h5, h6]
      | cons b u'' => simp
    simp only [hcond, ih (some a)]

/-! ## Lemmas about the basketball post extractor -/

theorem collectSeries_append (u v : List (List Char)) :
    collectSeries (u ++ v) = collectSeries u ++ collectSeries v := by
  unfold collectSeries
  exact List.filterMap_append u v _

theorem collectSeries_cons_err (w : List Char) (v : List (List Char)) (e : LineError)
    (hw : parse_line w = .error e) :
    collectSeries (w :: v) = collectSeries v := by
  unfold collectSeries
  rw [List.filterMap_cons]
  rw [hw]
  rfl

theorem collectSeries_length (lines : List (List Char)) :
    (collectSeries lines).length =
      lines.countP (fun l => ((parse_line l).toOption).isSome) := by
  induction lines with
  | nil => rfl
  | cons l ls ih =>
    unfold collectSeries at *
    cases h : parse_line l with
    | ok p =>
      have e1 : (parse_line l).toOption = some p := by rw [h]; rfl
      rw [List.filterMap_cons, List.countP_cons]
      simp only [e1]
      simp [ih]
    | error e =>
      have e1 : (parse_line l).toOption = none := by rw [h]; rfl
      rw [List.filterMap_cons, List.countP_cons]
      simp only [e1]
      simp [ih]

/-! ## Claim theorems -/

/-- C1: for every line whose tokens resolve to exactly two distinct teams
and which contains exactly two standalone non-parenthesized digits in
`[0,4]` with exactly one of them equal to `4`, `parse_line` succeeds and
returns winner = the team at the index of the higher score and total = the
sum of the two scores. -/
theorem claim_C1_parse_line_valid (line : List Char) (t1 t2 : String) (s1 s2 : Nat)
    (hT : teamsOf line = [t1, t2]) (hS : scoresOf line = [s1, s2])
    (h4 : (s1 = 4 ∧ s2 ≠ 4) ∨ (s1 ≠ 4 ∧ s2 = 4)) :
    ∃ w, parse_line line = .ok ⟨(w, s1 + s2), (t1, t2), (s1, s2)⟩ ∧
      ((s1 > s2 ∧ w = t1) ∨ (s2 > s1 ∧ w = t2)) := by
  have hs1 : s1 ≤ 4 := scoresOf_le line s1 (by rw [hS]; simp)
  have hs2 : s2 ≤ 4 := scoresOf_le line s2 (by rw [hS]; simp)
  have hcount : ([s1, s2] : List Nat).count 4 = 1 := by
    rcases h4 with ⟨h1, h2⟩ | ⟨h1, h2⟩ <;>
      simp [List.count_cons, h1, h2]
  refine ⟨if s1 > s2 then t1 else t2, ?_, ?_⟩
  · simp only [parse_line]
    rw [hT, hS]
    rw [if_neg (by simp : ¬([t1, t2] : List String) = [])]
    rw [if_neg (by simp : ¬([s1, s2] : List Nat) = [])]
    rw [if_neg (by simp : ¬([t1, t2] : List String).length ≠ 2)]
    rw [if_neg (by simp : ¬([s1, s2] : List Nat).length ≠ 2)]
    rw [if_neg (by simp [hcount] : ¬([s1, s2] : List Nat).count 4 ≠ 1)]
    simp [List.getD]
  · rcases h4 with ⟨h1, h2⟩ | ⟨h1, h2⟩
    · have : s2 < s1 := by omega
      exact Or.inl ⟨this, if_pos this⟩
    · have : ¬s1 > s2 := by omega
      exact Or.inr ⟨by omega, if_neg this⟩

theorem claim_C1_witness :
    ∃ w, parse_line (("boston 4 clippers 2").data) =
        .ok ⟨(w, 4 + 2), ("BOS", "LAC"), (4, 2)⟩ ∧
      ((4 > 2 ∧ w = "BOS") ∨ (2 > 4 ∧ w = "LAC")) :=
  claim_C1_parse_line_valid (("boston 4 clippers 2").data) "BOS" "LAC" 4 2
    (by decide) (by decide) (Or.inl ⟨rfl, by decide⟩)

/-- C9: for every line that `parse_line` accepts, the winning side's score
is exactly `4` and the returned total is between `4` and `7` inclusive
(the loser's score is in `[0,3]`). -/
theorem claim_C9_accepted_invariant (line : List Char) (p : Prediction)
    (h : parse_line line = .ok p) :
    max p.scores.1 p.scores.2 = 4 ∧ min p.scores.1 p.scores.2 ≤ 3 ∧
    p.result.2 = p.scores.1 + p.scores.2 ∧ 4 ≤ p.result.2 ∧ p.result.2 ≤ 7 ∧
    (p.scores.1 > p.scores.2 → p.result.1 = p.teams.1) ∧
    (p.scores.2 > p.scores.1 → p.result.1 = p.teams.2) := by
  simp only [parse_line] at h
  split at h
  · simp at h
  · split at h
    · simp at h
    · split at h
      · simp at h
      · split at h
        · simp at h
        · split at h
          · simp at h
          · rename_i hT0 hS0 hT2 hS2 hC4
            obtain ⟨t1, t2, hT⟩ := List.length_eq_two.mp (not_not.mp hT2)
            obtain ⟨s1, s2, hS⟩ := List.length_eq_two.mp (not_not.mp hS2)
            have hs1 : s1 ≤ 4 := scoresOf_le line s1 (by rw [hS]; simp)
            have hs2 : s2 ≤ 4 := scoresOf_le line s2 (by rw [hS]; simp)
            have hcnt : ([s1, s2] : List Nat).count 4 = 1 := by
              rw [← hS]
              exact not_not.mp hC4
            have hxor : (s1 = 4 ∧ s2 ≠ 4) ∨ (s1 ≠ 4 ∧ s2 = 4) := by
              by_cases e1 : s1 = 4 <;> by_cases e2 : s2 = 4 <;>
                simp [List.count_cons, e1, e2] at hcnt <;> tauto
            rw [hT, hS] at h
            simp only [List.getD_cons_zero, List.getD_cons_succ] at h
            rw [Except.ok.injEq] at h
            subst h
            simp only []
            refine ⟨?_, ?_, ?_, ?_, ?_, ?_, ?_⟩
            · rcases hxor with ⟨e1, e2⟩ | ⟨e1, e2⟩ <;> omega
            · rcases hxor with ⟨e1, e2⟩ | ⟨e1, e2⟩ <;> omega
            · simp
            · rcases hxor with ⟨e1, e2⟩ | ⟨e1, e2⟩ <;> simp <;> omega
            · rcases hxor with ⟨e1, e2⟩ | ⟨e1, e2⟩ <;> simp <;> omega
            · intro hgt
              simp only [if_pos hgt]
            · intro hgt
              have : ¬((s1 : Nat) > s2) := by omega
              simp only [if_neg this]

theorem claim_C9_witness :
    max 4 0 = 4 ∧ min 4 0 ≤ 3 ∧ (4 : Nat) = 4 + 0 ∧ 4 ≤ 4 ∧ (4 : Nat) ≤ 7 ∧
    ((4 : Nat) > 0 → ("LAL" : String) = "LAL") ∧
    ((0 : Nat) > 4 → ("LAL" : String) = "BOS") :=
  claim_C9_accepted_invariant (("lakers 4 celtics 0").data)
    ⟨("LAL", 4), ("LAL", "BOS"), (4, 0)⟩ (by decide)

/-- C4: for every line missing any resolvable team token, missing any score
digit, containing a number of distinct resolvable teams other than two
(in particular more than two), containing a number of score digits
different from two, or whose two scores contain zero or two `4`s,
`parse_line` fails; the checks are applied in exactly that order, failing
fast on the first violation, and each failure carries a distinguishable
reason with the offending values. -/
theorem claim_C4_parse_line_failfast (line : List Char) :
    (teamsOf line = [] → parse_line line = .error .noTeam) ∧
    (teamsOf line ≠ [] → scoresOf line = [] → parse_line line = .error .noScore) ∧
    (teamsOf line ≠ [] → scoresOf line ≠ [] → (teamsOf line).length ≠ 2 →
      parse_line line = .error (.teamCount (teamsOf line))) ∧
    (teamsOf line ≠ [] → scoresOf line ≠ [] → (teamsOf line).length = 2 →
      (scoresOf line).length ≠ 2 → parse_line line = .error (.scoreCount (scoresOf line))) ∧
    (teamsOf line ≠ [] → scoresOf line ≠ [] → (teamsOf line).length = 2 →
      (scoresOf line).length = 2 → (scoresOf line).count 4 ≠ 1 →
      parse_line line = .error (.fourCount (scoresOf line))) ∧
    List.Pairwise (fun a b => a ≠ b)
      [LineError.noTeam, LineError.noScore, LineError.teamCount (teamsOf line),
        LineError.scoreCount (scoresOf line), LineError.fourCount (scoresOf line)] := by
  refine ⟨?_, ?_, ?_, ?_, ?_, ?_⟩
  · intro h1
    simp only [parse_line]
    rw [if_pos h1]
  · intro h1 h2
    simp only [parse_line]
    rw [if_neg h1, if_pos h2]
  · intro h1 h2 h3
    simp only [parse_line]
    rw [if_neg h1, if_neg h2, if_pos h3]
  · intro h1 h2 h3 h4
    simp only [parse_line]
    rw [if_neg h1, if_neg h2, if_neg (not_not.mpr h3), if_pos h4]
  · intro h1 h2 h3 h4 h5
    simp only [parse_line]
    rw [if_neg h1, if_neg h2, if_neg (not_not.mpr h3), if_neg (not_not.mpr h4), if_pos h5]
  · simp

theorem claim_C4_witness :
    parse_line (("xx yy")).data = .error .noTeam ∧
    parse_line (("atl bos")).data = .error .noScore ∧
    parse_line (("atl bos cle 4 2")).data =
      .error (.teamCount (teamsOf (("atl bos cle 4 2")).data)) ∧
    parse_line (("atl bos 4 2 1")).data =
      .error (.scoreCount (scoresOf (("atl bos 4 2 1")).data)) ∧
    parse_line (("atl bos 2 1")).data =
      .error (.fourCount (scoresOf (("atl bos 2 1")).data)) :=
  ⟨(claim_C4_parse_line_failfast _).1 (by decide),
   (claim_C4_parse_line_failfast (("atl bos")).data).2.1 (by decide) (by decide),
   (claim_C4_parse_line_failfast (("atl bos cle 4 2")).data).2.2.1
     (by decide) (by decide) (by decide),
   (claim_C4_parse_line_failfast (("atl bos 4 2 1")).data).2.2.2.1
     (by decide) (by decide) (by decide) (by decide),
   (claim_C4_parse_line_failfast (("atl bos 2 1")).data).2.2.2.2.1
     (by decide) (by decide) (by decide) (by decide) (by decide)⟩

/-- C3: digits enclosed in parentheses are never counted as scores — a
parenthesized character contributes nothing to the scan, a word character
(hence any digit) directly preceded by `(` or directly followed by `)` is
never collected, every collected value lies in `[0,4]`, and on the line
`"team A (3) team B 4 2"` exactly the scores `[4, 2]` are extracted. -/
theorem claim_C3_paren_never_scores (u : List Char) (d : Char) (v w : List Char) :
    scoresOf (("team A (3) team B 4 2").data) = [4, 2] ∧
    findScores (u ++ '(' :: d :: ')' :: v) = findScores (u ++ '(' :: ')' :: v) ∧
    (isWordChar d = true →
      findScores (u ++ '(' :: d :: v) = findScores (u ++ '(' :: v)) ∧
    (isWordChar d = true →
      findScores (u ++ d :: ')' :: v) = findScores (u ++ ')' :: v)) ∧
    (∀ x ∈ findScores w, x ≤ 4) := by
  refine ⟨by decide, findScoresAux_paren u d v none, ?_, ?_, findScoresAux_le w none⟩
  · intro hd
    exact findScoresAux_openParen u d v hd none
  · intro hd
    exact findScoresAux_closeParen u d v hd none

theorem claim_C3_witness :
    scoresOf (("team A (3) team B 4 2").data) = [4, 2] ∧
    findScores (((" ").data) ++ '(' :: '3' :: ')' :: ((" 4").data)) =
      findScores (((" ").data) ++ '(' :: ')' :: ((" 4").data)) ∧
    findScores (((" ").data) ++ '(' :: '3' :: ((" 4").data)) =
      findScores (((" ").data) ++ '(' :: ((" 4").data)) ∧
    findScores (((" ").data) ++ '3' :: ')' :: ((" 4").data)) =
      findScores (((" ").data) ++ ')' :: ((" 4").data)) ∧
    (∀ x ∈ findScores (("0 4").data), x ≤ 4) := by
  have h := claim_C3_paren_never_scores ((" ").data) '3' ((" 4").data) (("0 4").data)
  exact ⟨h.1, h.2.1, h.2.2.1 (by decide), h.2.2.2.1 (by decide), h.2.2.2.2⟩

/-- C6: `print_top` implements the threshold rule — with at most `num`
entries everything is printed; with more than `num` entries exactly the
rows whose count reaches the count of the entry at rank `num` are printed,
so boundary ties are never split; on the documented example with `num = 3`
exactly `a`, `b`, `c` are printed and `d` is excluded. -/
theorem claim_C6_print_top_threshold (input : List (Nat × String)) (num : Nat) :
    (input.length ≤ num → print_top input num = input) ∧
    (input.length > num → ∀ x, x ∈ print_top input num ↔
      x ∈ input ∧ (input.getD (num - 1) (0, "")).1 ≤ x.1) ∧
    print_top [(5, "a"), (5, "b"), (4, "c"), (3, "d")] 3 =
      [(5, "a"), (5, "b"), (4, "c")] := by
  refine ⟨?_, ?_, by decide⟩
  · intro h
    unfold print_top
    rw [if_neg (by omega)]
    simp
  · intro h x
    unfold print_top
    rw [if_pos h]
    simp [List.mem_filter]

theorem claim_C6_witness :
    print_top [(1, "z")] 5 = [(1, "z")] ∧
    ((4, "c") ∈ print_top [(5, "a"), (5, "b"), (4, "c"), (3, "d")] 3 ↔
      (4, "c") ∈ [(5, "a"), (5, "b"), (4, "c"), (3, "d")] ∧
      (([(5, "a"), (5, "b"), (4, "c"), (3, "d")] : List (Nat × String)).getD 2 (0, "")).1 ≤ 4) :=
  ⟨(claim_C6_print_top_threshold [(1, "z")] 5).1 (by decide),
   (claim_C6_print_top_threshold [(5, "a"), (5, "b"), (4, "c"), (3, "d")] 3).2.1
     (by decide) (4, "c")⟩

/-- C7: team alias resolution is case-insensitive (the line is casefolded
before tokenization, so two lines equal up to letter case parse
identically) and order-stable: the collection loop of `parse_line` agrees
with resolving each token to the first team of the table's declared
iteration order whose alias set contains it, deduplicated in order. -/
theorem claim_C7_alias_resolution (l1 l2 : List Char) (ws : List (List Char)) :
    (l1.map Char.toLower = l2.map Char.toLower → parse_line l1 = parse_line l2) ∧
    collectTeams ws = collectTeamsSpec ws := by
  constructor
  · intro h
    simp only [parse_line, teamsOf, scoresOf]
    rw [h]
  · exact collectTeams_eq_spec ws

theorem claim_C7_witness :
    parse_line (("ATL bos 4 2").data) = parse_line (("atl BOS 4 2").data) ∧
    collectTeams [("lakers").data] = collectTeamsSpec [("lakers").data] := by
  have h := claim_C7_alias_resolution (("ATL bos 4 2").data) (("atl BOS 4 2").data)
    [("lakers").data]
  exact ⟨h.1 (by decide), h.2⟩

/-- C5: in the basketball variant, post extraction discards non-matching
body lines individually (removing a non-parsing line from the body changes
nothing), collects successful line parses in order, and — when the
metadata steps succeed and the post is not a page-boundary duplicate —
the post is accepted if and only if the number of successfully parsed
prediction lines is exactly `15`; otherwise it fails with a count reason
(`no series found` for zero, the count mismatch otherwise). -/
theorem claim_C5_fifteen_series (p : RawPost) (a : String) (d : DateTime)
    (u v : List (List Char)) (w : List Char) (e : LineError) :
    (parse_line w = .error e → collectSeries (u ++ w :: v) = collectSeries (u ++ v)) ∧
    (p.anchorName = some a → parse_date p.dateString = some d →
      p.bodyLines.head? ≠ some reprise →
      (((∃ ent, parse_message p = .ok ent) ↔
          p.bodyLines.countP (fun l => ((parse_line l).toOption).isSome) = 15) ∧
        ((collectSeries p.bodyLines).length = 15 →
          parse_message p = .ok ⟨p.user, stripAnchor a, d, collectSeries p.bodyLines⟩) ∧
        (collectSeries p.bodyLines = [] →
          parse_message p = .error (.assertionError .noSeries)) ∧
        (collectSeries p.bodyLines ≠ [] → (collectSeries p.bodyLines).length ≠ 15 →
          parse_message p =
            .error (.assertionError (.seriesCount (collectSeries p.bodyLines).length))))) := by
  constructor
  · intro hw
    rw [collectSeries_append, collectSeries_cons_err w v e hw, collectSeries_append]
  · intro ha hd hdup
    have hred : parse_message p =
        (if collectSeries p.bodyLines = [] then
          Except.error (Failure.assertionError PostError.noSeries)
        else if (collectSeries p.bodyLines).length ≠ 15 then
          Except.error (Failure.assertionError
            (PostError.seriesCount (collectSeries p.bodyLines).length))
        else Except.ok ⟨p.user, stripAnchor a, d, collectSeries p.bodyLines⟩) := by
      simp only [parse_message, ha, hd]
      rw [if_neg hdup]
    refine ⟨?_, ?_, ?_, ?_⟩
    · rw [← collectSeries_length]
      constructor
      · rintro ⟨ent, hent⟩
        rw [hred] at hent
        split at hent
        · simp at hent
        · split at hent
          · simp at hent
          · rename_i hlen
            exact not_not.mp hlen
      · intro hlen
        refine ⟨⟨p.user, stripAnchor a, d, collectSeries p.bodyLines⟩, ?_⟩
        rw [hred]
        rw [if_neg (by intro hc; rw [hc] at hlen; simp at hlen)]
        rw [if_neg (not_not.mpr hlen)]
    · intro hlen
      rw [hred]
      rw [if_neg (by intro hc; rw [hc] at hlen; simp at hlen)]
      rw [if_neg (not_not.mpr hlen)]
    · intro hnil
      rw [hred, if_pos hnil]
    · intro hnil hlen
      rw [hred, if_neg hnil, if_pos hlen]

theorem claim_C5_witness :
    collectSeries [("zzz").data, ("atl bos 4 0").data] =
      collectSeries [("atl bos 4 0").data] ∧
    ((∃ ent, parse_message ⟨"u", some ("t1"),
        ("Posté le 01-02-2024 à 10:20:30").data, []⟩ = .ok ent) ↔
      ([] : List (List Char)).countP (fun l => ((parse_line l).toOption).isSome) = 15) ∧
    parse_message ⟨"u", some ("t1"), ("Posté le 01-02-2024 à 10:20:30").data, []⟩ =
      .error (.assertionError .noSeries) := by
  have h := claim_C5_fifteen_series
    ⟨"u", some ("t1"), ("Posté le 01-02-2024 à 10:20:30").data, []⟩
    "t1" ⟨1, 2, 2024, 10, 20, 30⟩ [] [("atl bos 4 0").data] (("zzz").data) .noTeam
  have h2 := h.2 rfl (by decide) (by decide)
  exact ⟨h.1 (by decide), h2.1, h2.2.2.1 (by decide)⟩

/-- C2 (amended): when the posting-timestamp string does not match the
format `"Posté le %d-%m-%Y à %H:%M:%S"`, `parse_message` fails with the
`ValueError` of `datetime.strptime` — not an `AssertionError` discard —
and `get_messages`, which catches only `AssertionError`, propagates it,
aborting the whole page instead of skipping just that post. -/
theorem claim_C2_date_error_aborts (p : RawPost) (a : String) (rest : List RawPost) :
    (p.anchorName = some a → parse_date p.dateString = none →
      parse_message p = .error .valueError) ∧
    (parse_message p = .error .valueError →
      get_messages (p :: rest) = .error .valueError) := by
  constructor
  · intro ha hd
    simp only [parse_message, ha, hd]
  · intro h
    simp only [get_messages, List.foldlM, h]
    rfl

theorem claim_C2_witness :
    parse_message ⟨"bob", some ("t7"), ("hier").data, []⟩ = .error .valueError ∧
    get_messages [⟨"bob", some ("t7"), ("hier").data, []⟩,
      ⟨"eve", some ("t8"), ("demain").data, []⟩] = .error .valueError := by
  have h := claim_C2_date_error_aborts ⟨"bob", some ("t7"), ("hier").data, []⟩ "t7"
    [⟨"eve", some ("t8"), ("demain").data, []⟩]
  exact ⟨h.1 rfl (by decide), h.2 (h.1 rfl (by decide))⟩

/-- C2 as stated is refuted: a post whose timestamp string does not match
the format makes `get_messages` abort with the uncaught `ValueError`
instead of skipping only that post — even though the very same following
post, on its own, is accepted. -/
theorem claim_C2_counterexample :
    get_messages [⟨"bob", some ("t7"), ("hier").data, []⟩,
      ⟨"alice", some ("t99"), ("Posté le 02-03-2024 à 11:22:33").data,
        [("atl bos 4 0").data, ("bkn cle 4 1").data, ("cha chi 4 2").data,
         ("dal den 4 3").data, ("det gsw 4 0").data, ("hou ind 4 1").data,
         ("lac lal 4 2").data, ("mem mia 4 3").data, ("mil min 4 0").data,
         ("nop nyk 4 1").data, ("okc orl 4 2").data, ("phi phx 4 3").data,
         ("por sac 4 0").data, ("sas tor 4 1").data, ("uta was 4 2").data]⟩] =
      .error .valueError ∧
    ((get_messages [⟨"alice", some ("t99"), ("Posté le 02-03-2024 à 11:22:33").data,
        [("atl bos 4 0").data, ("bkn cle 4 1").data, ("cha chi 4 2").data,
         ("dal den 4 3").data, ("det gsw 4 0").data, ("hou ind 4 1").data,
         ("lac lal 4 2").data, ("mem mia 4 3").data, ("mil min 4 0").data,
         ("nop nyk 4 1").data, ("okc orl 4 2").data, ("phi phx 4 3").data,
         ("por sac 4 0").data, ("sas tor 4 1").data, ("uta was 4 2").data]⟩]).toOption).isSome
      = true := by
  constructor
  · decide
  · decide

/-- C8: a post whose cleaned body's first non-empty trimmed line is exactly
`"Reprise du message précédent :"` is discarded as a duplicate by both
variants (given that the metadata steps before the body check succeed),
whatever the rest of the body holds. -/
theorem claim_C8_reprise_duplicate (p : RawPost) (a : String) (d : DateTime)
    (q : OlyPost) (qa : String) (qn : Nat) (qd : DateTime) (st : CountState) (pg : Nat) :
    (p.anchorName = some a → parse_date p.dateString = some d →
      p.bodyLines.head? = some reprise →
      parse_message p = .error (.assertionError .duplicate)) ∧
    (q.anchorName = some qa → natOfChars (qa.data.drop 1) = some qn →
      parse_date q.dateString = some qd → q.bodyLines.head? = some reprise →
      (oly_parse_message pg st q).2 = .error (.assertionError .duplicate)) := by
  constructor
  · intro ha hd hb
    simp only [parse_message, ha, hd]
    rw [if_pos hb]
  · intro ha hn hd hb
    simp only [oly_parse_message, ha, hn, hd]
    rw [if_pos hb]

theorem claim_C8_witness :
    parse_message ⟨"bob", some ("t7"), ("Posté le 01-02-2024 à 10:20:30").data,
      [reprise, ("atl bos 4 0").data]⟩ = .error (.assertionError .duplicate) ∧
    (oly_parse_message 3 ⟨[], [], []⟩
      ⟨"bob", some ("t42"), ("Posté le 01-02-2024 à 10:20:30").data, 2,
        ["http://a.png", ":lol:"], [reprise]⟩).2 = .error (.assertionError .duplicate) := by
  have h := claim_C8_reprise_duplicate
    ⟨"bob", some ("t7"), ("Posté le 01-02-2024 à 10:20:30").data,
      [reprise, ("atl bos 4 0").data]⟩ "t7" ⟨1, 2, 2024, 10, 20, 30⟩
    ⟨"bob", some ("t42"), ("Posté le 01-02-2024 à 10:20:30").data, 2,
      ["http://a.png", ":lol:"], [reprise]⟩ "t42" 42 ⟨1, 2, 2024, 10, 20, 30⟩
    ⟨[], [], []⟩ 3
  exact ⟨h.1 rfl (by decide) rfl, h.2 rfl (by decide) (by decide) rfl⟩

/-- C10: in the olympics variant, discarding a duplicate post is not atomic
with respect to the shared frequency tables — by the time the duplicate
discard is raised, the author's `user_count` and the emote/image counts of
every catalogued label of the body have already been incremented, and the
returned state keeps those increments. -/
theorem claim_C10_discard_keeps_counts (pg : Nat) (st : CountState) (p : OlyPost)
    (a : String) (n : Nat) (d : DateTime) (name : String)
    (ha : p.anchorName = some a) (hn : natOfChars (a.data.drop 1) = some n)
    (hd : parse_date p.dateString = some d) (hb : p.bodyLines.head? = some reprise) :
    (oly_parse_message pg st p).2 = .error (.assertionError .duplicate) ∧
    getCount (oly_parse_message pg st p).1.user_count p.user =
      getCount st.user_count p.user + 1 ∧
    (name ≠ "" → startsHttp name = false →
      getCount (oly_parse_message pg st p).1.emote_count name =
        getCount st.emote_count name + p.imageAlts.count name) ∧
    (startsHttp name = true →
      getCount (oly_parse_message pg st p).1.image_count name =
        getCount st.image_count name + p.imageAlts.count name) := by
  have hmsg : oly_parse_message pg st p =
      (foldImages { st with user_count := bump st.user_count p.user } p.imageAlts,
        .error (.assertionError .duplicate)) := by
    simp only [oly_parse_message, ha, hn, hd]
    rw [if_pos hb]
  refine ⟨by rw [hmsg], ?_, ?_, ?_⟩
  · rw [hmsg]
    show getCount (foldImages { st with user_count := bump st.user_count p.user }
      p.imageAlts).user_count p.user = getCount st.user_count p.user + 1
    rw [foldImages_user_count]
    exact getCount_bump_self st.user_count p.user
  · intro hne hh
    rw [hmsg]
    show getCount (foldImages { st with user_count := bump st.user_count p.user }
      p.imageAlts).emote_count name = getCount st.emote_count name + p.imageAlts.count name
    rw [foldImages_emote_count name hne hh p.imageAlts]
  · intro hh
    rw [hmsg]
    show getCount (foldImages { st with user_count := bump st.user_count p.user }
      p.imageAlts).image_count name = getCount st.image_count name + p.imageAlts.count name
    rw [foldImages_image_count name hh p.imageAlts]

theorem claim_C10_witness :
    (oly_parse_message 1 ⟨[], [], []⟩
      ⟨"bob", some ("t42"), ("Posté le 01-02-2024 à 10:20:30").data, 0,
        ["http://a.png", ":lol:", ":lol:", ""], [reprise]⟩).2 =
      .error (.assertionError .duplicate) ∧
    getCount (oly_parse_message 1 ⟨[], [], []⟩
      ⟨"bob", some ("t42"), ("Posté le 01-02-2024 à 10:20:30").data, 0,
        ["http://a.png", ":lol:", ":lol:", ""], [reprise]⟩).1.user_count "bob" = 1 ∧
    getCount (oly_parse_message 1 ⟨[], [], []⟩
      ⟨"bob", some ("t42"), ("Posté le 01-02-2024 à 10:20:30").data, 0,
        ["http://a.png", ":lol:", ":lol:", ""], [reprise]⟩).1.emote_count ":lol:" = 2 ∧
    getCount (oly_parse_message 1 ⟨[], [], []⟩
      ⟨"bob", some ("t42"), ("Posté le 01-02-2024 à 10:20:30").data, 0,
        ["http://a.png", ":lol:", ":lol:", ""], [reprise]⟩).1.image_count "http://a.png"
      = 1 := by
  have h1 := claim_C10_discard_keeps_counts 1 ⟨[], [], []⟩
    ⟨"bob", some ("t42"), ("Posté le 01-02-2024 à 10:20:30").data, 0,
      ["http://a.png", ":lol:", ":lol:", ""], [reprise]⟩
    "t42" 42 ⟨1, 2, 2024, 10, 20, 30⟩ ":lol:" rfl (by decide) (by decide) rfl
  have h2 := claim_C10_discard_keeps_counts 1 ⟨[], [], []⟩
    ⟨"bob", some ("t42"), ("Posté le 01-02-2024 à 10:20:30").data, 0,
      ["http://a.png", ":lol:", ":lol:", ""], [reprise]⟩
    "t42" 42 ⟨1, 2, 2024, 10, 20, 30⟩ "http://a.png" rfl (by decide) (by decide) rfl
  refine ⟨h1.1, ?_, ?_, ?_⟩
  · rw [h1.2.1]
    decide
  · rw [h1.2.2.1 (by decide) (by decide)]
    decide
  · rw [h2.2.2.2 (by decide)]
    decide
